import Mathlib

/-!
Verification development for the PSy-layer compiler core described in the
repository specification.  The repository's src tree contains only the example
driver (examples/dynamo/eg1/runme.py); the compiler core itself (the modules
parse and psyGen imported by the driver) is not present, so every definition of
the core below is modelled from the specification text, as indicated by its doc
comment.
-/

namespace PSy

/-- Modelled from the spec: access modes of kernel argument descriptors
(read / write / read-write, plus the sum-like reduction accessor of section 4.4);
the kernel-metadata module is missing from src. -/
inductive AccessMode where
  | read
  | write
  | readWrite
  | sum
deriving DecidableEq, Repr

/-- Modelled from the spec: one argument descriptor of a kernel's metadata
(access mode, data space, optional stencil/halo depth); the kernel-metadata
module is missing from src. -/
structure ArgumentDescriptor where
  accessMode : AccessMode
  space : String
  stencilDepth : Option Nat
deriving DecidableEq, Repr

/-- Modelled from the spec: a raw (undecoded) argument descriptor as returned by
the external metadata store: access-mode text, data-space id, optional stencil
depth; the metadata-store module is missing from src. -/
abbrev RawDescriptor := List (String × String × Option Nat)

/-- Modelled from the spec: the metadata store, an external lookup keyed by
kernel name returning raw descriptors; the store module is missing from src. -/
structure MetadataStore where
  entries : List (String × RawDescriptor)
deriving DecidableEq, Repr

/-- Modelled from the spec: the lookup contract of the metadata store,
returning the raw descriptor for a kernel name when one exists. -/
def lookupKernel (store : MetadataStore) (name : String) : Option RawDescriptor :=
  (store.entries.find? (fun e => e.1 = name)).map (fun e => e.2)

/-- Modelled from the spec: decoding one raw access-mode text into an access
mode; decoding fails on text outside the access-mode schema. -/
def decodeMode (s : String) : Option AccessMode :=
  if s = "read" then some .read
  else if s = "write" then some .write
  else if s = "readwrite" then some .readWrite
  else if s = "sum" then some .sum
  else none

/-- Modelled from the spec: decoding a raw descriptor list into the
access-mode/space schema, failing when any entry cannot be decoded. -/
def decodeDescriptor (raw : RawDescriptor) : Option (List ArgumentDescriptor) :=
  raw.mapM (fun e => (decodeMode e.1).map (fun m => ⟨m, e.2.1, e.2.2⟩))

/-- Modelled from the spec: the error taxonomy of kernel-metadata resolution
(section 7); the resolver module is missing from src. -/
inductive ResolveError where
  | unknownKernelError (name : String)
  | malformedMetadataError (name : String)
deriving DecidableEq, Repr

/-- Modelled from the spec: the kernel-metadata resolver contract
resolve(kernelName) -> KernelMetadata, failing with UnknownKernelError when no
descriptor is found and MalformedMetadataError when the descriptor cannot be
decoded; the resolver module is missing from src. -/
def resolve (store : MetadataStore) (name : String) :
    Except ResolveError (List ArgumentDescriptor) :=
  match lookupKernel store name with
  | none => .error (.unknownKernelError name)
  | some raw =>
    match decodeDescriptor raw with
    | none => .error (.malformedMetadataError name)
    | some md => .ok md

/-- Modelled from the spec: the error raised by the builder selector for an
unrecognized API identifier, listing the supported set; the registry module is
missing from src. -/
structure UnsupportedAPIError where
  supported : List String
deriving DecidableEq, Repr

/-- Modelled from the spec: the closed, versioned set of supported API
identifiers; the example driver selects the dynamo0.1 API. -/
def supportedAPIs : List String := ["dynamo0.1"]

/-- Modelled from the spec: the closed tagged variant over the supported API
set carrying each API's argument-ordering and data-space rules; the registry
module is missing from src. -/
inductive ApiVariant where
  | dynamo0_1
deriving DecidableEq, Repr

/-- Modelled from the spec: the builder selector contract
selectBuilder(apiId) -> SchedBuilder, failing with UnsupportedAPIError listing
the supported set when apiId is not recognized; the registry module is missing
from src. -/
def selectBuilder (apiId : String) : Except UnsupportedAPIError ApiVariant :=
  if apiId = "dynamo0.1" then .ok .dynamo0_1
  else .error ⟨supportedAPIs⟩

/-- Modelled from the spec: a resolved kernel call: kernel name, actual
arguments, and the access pattern copied from the kernel metadata; the builder
module is missing from src. -/
structure KernelCall where
  kernelName : String
  args : List String
  accessPattern : List ArgumentDescriptor
deriving DecidableEq, Repr

/-- Modelled from the spec: the Schedule node variants of section 3 (LoopNode
with bounds spec, a parallel marker set by the Parallelize transformation and a
body; HaloExchangeNode; GlobalReductionNode); the body of a LoopNode is a list
of kernel calls so that the Fuse transformation can merge loops; the schedule
module is missing from src. -/
inductive ScheduleNode where
  | loop (bounds : String) (parallel : Bool) (body : List KernelCall)
  | halo (field : String) (depth : Nat)
  | greduce (field : String) (op : String)
deriving DecidableEq, Repr

/-- Modelled from the spec: a Schedule is the ordered sequence of children of
the schedule root (the tree is one level of loops and synchronization nodes,
each loop wrapping kernel-call nodes). -/
abbrev Schedule := List ScheduleNode

/-- Modelled from the spec: the (argument, descriptor) access pairs of a
resolved kernel call, pairing actual arguments with the kernel's metadata. -/
def accessesOf (k : KernelCall) : List (String × ArgumentDescriptor) :=
  k.args.zip k.accessPattern

/-- Modelled from the spec: whether an access mode writes its argument
(write, read-write, or the sum-like reduction accumulation). -/
def isWriteMode : AccessMode → Bool
  | .read => false
  | .write => true
  | .readWrite => true
  | .sum => true

/-- Modelled from the spec: whether an access mode reads its argument. -/
def isReadMode : AccessMode → Bool
  | .read => true
  | .write => false
  | .readWrite => true
  | .sum => false

/-- Modelled from the spec: whether a kernel call writes the given field. -/
def writesField (k : KernelCall) (f : String) : Bool :=
  (accessesOf k).any (fun a => a.1 = f && isWriteMode a.2.accessMode)

/-- Modelled from the spec: whether a kernel call accesses the given field. -/
def touchesField (k : KernelCall) (f : String) : Bool :=
  (accessesOf k).any (fun a => a.1 = f)

/-- Modelled from the spec: a write-write or write-read hazard between two
kernel calls: some field of the same data space accessed by both with at least
one Write access (section 3 invariant). -/
def conflictB (ka kb : KernelCall) : Bool :=
  (accessesOf ka).any (fun a =>
    (accessesOf kb).any (fun b =>
      a.1 = b.1 && a.2.space = b.2.space &&
        (isWriteMode a.2.accessMode || isWriteMode b.2.accessMode)))

/-- Modelled from the spec: whether a node is a synchronization node
(HaloExchangeNode or GlobalReductionNode). -/
def isSyncNode : ScheduleNode → Bool
  | .loop _ _ _ => false
  | .halo _ _ => true
  | .greduce _ _ => true

/-- Modelled from the spec: whether a synchronization node lies strictly
between positions i and j of the schedule in execution order. -/
def syncBetween (s : Schedule) (i j : Nat) : Bool :=
  ((s.take j).drop (i + 1)).any isSyncNode

/-- Modelled from the spec: whether the pair of nodes at positions i < j
violates the race-freedom invariant: two loops in different parallel
partitions (at least one of the two marked parallel) whose bodies carry a
hazard, with no synchronization node between them. -/
def violatingPair (s : Schedule) (i j : Nat) : Bool :=
  match s.get? i, s.get? j with
  | some (.loop _ pa ba), some (.loop _ pb bb) =>
    (pa || pb) && ba.any (fun ka => bb.any (fun kb => conflictB ka kb)) &&
      !(syncBetween s i j)
  | _, _ => false

/-- Modelled from the spec: all ordered index pairs i < j below n. -/
def orderedPairs (n : Nat) : List (Nat × Nat) :=
  (List.range n).flatMap (fun i =>
    (List.range n).filterMap (fun j => if i < j then some (i, j) else none))

/-- Modelled from the spec: the first offending node pair violating the
race-freedom invariant, used by the transformation engine to name the pair in
its error report. -/
def firstViolation (s : Schedule) : Option (Nat × Nat) :=
  (orderedPairs s.length).find? (fun p => violatingPair s p.1 p.2)

/-- Modelled from the spec: the data-race-freedom invariant of section 3 as a
decidable check over a schedule. -/
def raceFreeB (s : Schedule) : Bool :=
  (firstViolation s).isNone

/-- Modelled from the spec: the API variant's rule for default loop bounds over
the kernel's declared data space (section 4.4 step 1); the builder module is
missing from src. -/
def defaultBounds (v : ApiVariant) (k : KernelCall) : String :=
  match v with
  | .dynamo0_1 =>
    match k.accessPattern with
    | d :: _ => d.space
    | [] => "cells"

/-- Modelled from the spec: the halo exchanges required before a kernel call:
one per field the kernel reads halo-dependently (with a stencil depth) that was
most recently written by an earlier kernel and not yet exchanged (section 4.4
step 2). -/
def requiredHalos (dirty : List String) (k : KernelCall) : List (String × Nat) :=
  (accessesOf k).filterMap (fun a =>
    match a.2.stencilDepth with
    | some d =>
      if isReadMode a.2.accessMode && dirty.contains a.1 then some (a.1, d)
      else none
    | none => none)

/-- Modelled from the spec: the fields a kernel call writes. -/
def writtenFields (k : KernelCall) : List String :=
  (accessesOf k).filterMap (fun a =>
    if isWriteMode a.2.accessMode then some a.1 else none)

/-- Modelled from the spec: the global reductions owed to a kernel call, one
per sum-like reduction accessor (section 4.4 step 3). -/
def requiredReductions (k : KernelCall) : List ScheduleNode :=
  (accessesOf k).filterMap (fun a =>
    if a.2.accessMode = .sum then some (.greduce a.1 "sum") else none)

/-- Modelled from the spec: the nodes emitted for one kernel call site: the
required halo exchanges immediately before the LoopNode wrapping the
KernelCallNode, then the owed global reductions immediately after; paired with
the updated set of halo-dirty fields. -/
def emitCall (v : ApiVariant) (dirty : List String) (k : KernelCall) :
    List String × List ScheduleNode :=
  let halos := requiredHalos dirty k
  let dirty1 := dirty.filter (fun f => !((halos.map (fun h => h.1)).contains f))
  ( dirty1 ++ writtenFields k,
    halos.map (fun h => ScheduleNode.halo h.1 h.2) ++
      [.loop (defaultBounds v k) false [k]] ++ requiredReductions k )

/-- Modelled from the spec: one step of the builder's fold over kernel call
sites in declaration order. -/
def buildStep (v : ApiVariant) (st : List String × Schedule) (k : KernelCall) :
    List String × Schedule :=
  let (dirty, nodes) := emitCall v st.1 k
  (dirty, st.2 ++ nodes)

/-- Modelled from the spec: the schedule builder contract
build(invokeCall, metadataByKernel, apiVariant) -> Schedule of section 4.4; the
builder module is missing from src. -/
def build (v : ApiVariant) (calls : List KernelCall) : Schedule :=
  (calls.foldl (buildStep v) ([], [])).2

/-- Modelled from the spec: the recognized transform kinds Parallelize (a loop
node, addressed by its index in the schedule) and Fuse (two adjacent loop
nodes); the transformation module is missing from src. -/
inductive Transform where
  | parallelize (target : Nat)
  | fuse (a b : Nat)
deriving DecidableEq, Repr

/-- Modelled from the spec: IllegalTransformationError naming the violated
invariant and the offending node pair (section 4.5); the transformation module
is missing from src. -/
inductive TransformError where
  | illegal (invariantName : String) (pair : Nat × Nat)
deriving DecidableEq, Repr

/-- Modelled from the spec: marking a loop node for concurrent execution. -/
def setParallel : ScheduleNode → ScheduleNode
  | .loop b _ body => .loop b true body
  | n => n

/-- Modelled from the spec: the raw tree rewrite of a transform, before the
engine's legality check: Parallelize marks the target LoopNode; Fuse merges two
adjacent compatible LoopNodes over the same iteration space. -/
def rewrite (s : Schedule) (t : Transform) : Schedule :=
  match t with
  | .parallelize i =>
    match s.get? i with
    | some n => s.set i (setParallel n)
    | none => s
  | .fuse i j =>
    if j = i + 1 then
      match s.get? i, s.get? j with
      | some (.loop ba pa bodyA), some (.loop bb pb bodyB) =>
        if ba = bb && pa = pb then
          s.take i ++ [.loop ba pa (bodyA ++ bodyB)] ++ s.drop (j + 1)
        else s
      | _, _ => s
    else s

/-- Modelled from the spec: the transformation engine contract
apply(schedule, transform, targetNodeId) -> Schedule of section 4.5: the engine
re-checks the race-freedom invariant against the post-transform tree and fails
with IllegalTransformationError (naming the violated invariant and the
offending node pair) before accepting; the engine module is missing from
src. -/
def applyTransform (s : Schedule) (t : Transform) : Except TransformError Schedule :=
  let s1 := rewrite s t
  match firstViolation s1 with
  | some p => .error (.illegal "data-race-freedom" p)
  | none => .ok s1

/-- Modelled from the spec: applying a sequence of transformations in order,
each step re-validated by the engine. -/
def applySeq : Schedule → List Transform → Except TransformError Schedule
  | s, [] => .ok s
  | s, t :: ts =>
    match applyTransform s t with
    | .error e => .error e
    | .ok s1 => applySeq s1 ts

/-- Modelled from the spec: the observable pair of one engine call: the
returned result together with the input schedule as the caller still holds it
after the call (the contract returns a new schedule and does not mutate the
input in place). -/
def applyCall (s : Schedule) (t : Transform) :
    Except TransformError Schedule × Schedule :=
  (applyTransform s t, s)

/-- Modelled from the spec: the fixed code template for one kernel-call node of
the generated source. -/
def renderCall (k : KernelCall) : String :=
  "  call " ++ k.kernelName ++ "(" ++ String.intercalate ", " k.args ++ ")"

/-- Modelled from the spec: the code generator's fixed template per node kind
(section 4.6); a LoopNode under a Parallelize marker renders with the
parallel-region syntax wrapping that loop; the generator module is missing from
src. -/
def renderNode : ScheduleNode → List String
  | .loop bounds par body =>
    (if par then ["!$omp parallel do"] else []) ++
      ["do cell = 1, " ++ bounds] ++ body.map renderCall ++ ["end do"] ++
      (if par then ["!$omp end parallel do"] else [])
  | .halo f d => ["call halo_exchange(" ++ f ++ ", depth=" ++ toString d ++ ")"]
  | .greduce f op => ["call global_" ++ op ++ "(" ++ f ++ ")"]

/-- Modelled from the spec: the lines of the generated source of a schedule. -/
def renderLines (s : Schedule) : List String :=
  s.flatMap renderNode

/-- Modelled from the spec: the code generator contract
render(schedule) -> sourceText; a pure function of the Schedule. -/
def render (s : Schedule) : String :=
  String.intercalate "\n" (renderLines s)

/-- Modelled from the spec: the textual attributes of one node of the schedule
tree view. -/
def viewNode : ScheduleNode → List String
  | .loop bounds par body =>
    (("Loop[" ++ (if par then "parallel," else "") ++ "bounds=" ++ bounds ++ "]") ::
      body.map (fun k => "  KernelCall[" ++ k.kernelName ++ "]"))
  | .halo f d => ["HaloExchange[field=" ++ f ++ ",depth=" ++ toString d ++ "]"]
  | .greduce f op => ["GlobalReduction[field=" ++ f ++ ",op=" ++ op ++ "]"]

/-- Modelled from the spec: the diagnostic tree view
view(schedule) -> treeText, an indented human-readable dump of node kinds and
key attributes; a pure function of the Schedule. -/
def view (s : Schedule) : String :=
  String.intercalate "\n"
    ("Schedule" :: (s.flatMap viewNode).map (fun l => "  " ++ l))

/-- Modelled from the spec: the generated unique name of an invoke, derived
deterministically from its kernel calls (the example driver retrieves
invoke_v3_kernel_type and invoke_v3_solver_kernel_type); the naming code is
missing from src. -/
def invokeName : List KernelCall → String
  | [k] => "invoke_" ++ k.kernelName
  | calls => "invoke_" ++ String.intercalate "_" (calls.map (fun k => k.kernelName))

/-- Modelled from the spec: the Invoke IR object owning one Schedule and
exposing the invoke's generated name; the psyGen module is missing from src. -/
structure Invoke where
  name : String
  schedule : Schedule
deriving DecidableEq, Repr

/-- Modelled from the spec: the PSyRoot artifact, an ordered collection of
Invoke keyed by name; the psyGen module is missing from src. -/
abbrev PSyRoot := List Invoke

/-- Modelled from the spec: the compiled unit's listing of invoke names
(the queryable surface psy.invokes.names of the example driver). -/
def invokeNames (r : PSyRoot) : List String :=
  r.map (fun i => i.name)

/-- Modelled from the spec: the named lookup of an invoke
(the queryable surface psy.invokes.get of the example driver). -/
def getInvoke (r : PSyRoot) (n : String) : Option Invoke :=
  r.find? (fun i => i.name = n)

/-- Modelled from the spec: compiling a whole unit: one Invoke per invoke call,
in order, each owning the schedule the builder produces for its resolved kernel
calls; the psyGen module is missing from src. -/
def compileUnit (v : ApiVariant) (unit : List (List KernelCall)) : PSyRoot :=
  unit.map (fun calls => ⟨invokeName calls, build v calls⟩)

/-- Modelled from the spec: a kernel-call expression of an invoke statement: a
kernel name plus the ordered actual argument expressions; the parser module is
missing from src. -/
structure KernelCallSite where
  kernelName : String
  args : List String
deriving DecidableEq, Repr

/-- Modelled from the spec: one invoke statement with its ordered kernel-call
expressions; the parser module is missing from src. -/
structure InvokeCall where
  sites : List KernelCallSite
deriving DecidableEq, Repr

/-- Modelled from the spec: one item of the parsed algorithm-layer file: an
invoke statement, or an unrelated host-language line preserved verbatim as
opaque passthrough text. -/
inductive AlgItem where
  | passthrough (text : String)
  | invokeStmt (call : InvokeCall)
deriving DecidableEq, Repr

/-- Modelled from the spec: the whole parsed algorithm-layer file, immutable
after parse. -/
structure AlgorithmUnit where
  items : List AlgItem
deriving DecidableEq, Repr

/-- Modelled from the spec: ParseError on malformed invoke syntax, including a
source position (line number). -/
inductive ParseError where
  | parseError (line : Nat) (message : String)
deriving DecidableEq, Repr

/-- Modelled from the spec: checking that the parentheses of an invoke
statement are balanced, carrying the current nesting depth. -/
def parensBalanced : List Char → Nat → Bool
  | [], d => d = 0
  | c :: cs, d =>
    if c = '(' then parensBalanced cs (d + 1)
    else if c = ')' then
      match d with
      | 0 => false
      | e + 1 => parensBalanced cs e
    else parensBalanced cs d

/-- Modelled from the spec: splitting an argument-list character sequence on
the commas at nesting depth zero. -/
def splitTop : List Char → Nat → List Char → List (List Char)
  | [], _, cur => [cur.reverse]
  | c :: cs, d, cur =>
    if c = ',' && d = 0 then cur.reverse :: splitTop cs 0 []
    else if c = '(' then splitTop cs (d + 1) (c :: cur)
    else if c = ')' then splitTop cs (d - 1) (c :: cur)
    else splitTop cs d (c :: cur)

/-- Modelled from the spec: parsing one kernel-call expression of an invoke
statement into its kernel name and actual arguments, failing with a positioned
ParseError on a missing kernel name or unbalanced parentheses. -/
def parseKernelSite (lineNo : Nat) (s : String) : Except ParseError KernelCallSite :=
  let cs := s.trim.toList
  let name := cs.takeWhile (fun c => c ≠ '(')
  let rest := cs.dropWhile (fun c => c ≠ '(')
  if (String.mk name).trim = "" then
    .error (.parseError lineNo "missing kernel name")
  else if rest.isEmpty then
    .ok ⟨(String.mk name).trim, []⟩
  else if !(parensBalanced rest 0) then
    .error (.parseError lineNo "unbalanced parentheses")
  else
    let content := (rest.drop 1).dropLast
    let pieces := (splitTop content 0 []).map (fun l => (String.mk l).trim)
    .ok ⟨(String.mk name).trim, pieces.filter (fun p => p ≠ "")⟩

/-- Modelled from the spec: parsing the argument list of one invoke statement
into an InvokeCall, failing with a positioned ParseError on unbalanced
parentheses, an empty invoke list, or a malformed kernel-call expression. -/
def parseInvokeLine (lineNo : Nat) (afterKeyword : String) :
    Except ParseError InvokeCall := do
  let cs := afterKeyword.trim.toList
  match cs with
  | '(' :: _ =>
    if !(parensBalanced cs 0) then
      .error (.parseError lineNo "unbalanced parentheses")
    else
      let content := (cs.drop 1).dropLast
      let pieces := (splitTop content 0 []).map (fun l => (String.mk l).trim)
      let pieces := pieces.filter (fun p => p ≠ "")
      if pieces.isEmpty then
        .error (.parseError lineNo "empty invoke list")
      else do
        let sites ← pieces.mapM (parseKernelSite lineNo)
        return ⟨sites⟩
  | _ => .error (.parseError lineNo "unbalanced parentheses")

/-- Modelled from the spec: recognizing an invoke statement among opaque
host-language lines: a line whose trimmed text starts with the invoke-call
keyword. -/
def invokeKeyword : String := "call invoke"

/-- Modelled from the spec: parsing one source line at its position. -/
def parseLine (lineNo : Nat) (line : String) : Except ParseError AlgItem :=
  let t := line.trim
  if t.startsWith invokeKeyword then do
    let call ← parseInvokeLine lineNo (t.drop invokeKeyword.length)
    return .invokeStmt call
  else
    return .passthrough line

/-- Modelled from the spec: the algorithm parser contract
parse(sourceText, apiId) -> (AlgorithmUnit, InvokeCollection): zero or more
invoke statements interleaved with opaque passthrough text, pure and
side-effect-free; the parser module is missing from src. -/
def parse (sourceText : String) (_apiId : String) :
    Except ParseError (AlgorithmUnit × List InvokeCall) := do
  let items ← (sourceText.splitOn "\n").enum.mapM (fun p => parseLine p.1 p.2)
  return (⟨items⟩, items.filterMap (fun it =>
    match it with
    | .invokeStmt c => some c
    | .passthrough _ => none))

/-- Whether every loop node of a schedule is unparallelized (the builder's
sequential baseline). -/
def allSequential (s : Schedule) : Bool :=
  s.all (fun n =>
    match n with
    | .loop _ p _ => !p
    | _ => true)

/-- The body lists of the loop nodes of a schedule, in order. -/
def loopBody : ScheduleNode → Option (List KernelCall)
  | .loop _ _ b => some b
  | _ => none

/-- The loop bodies of a schedule in execution order. -/
def loopsOf (s : Schedule) : List (List KernelCall) :=
  s.filterMap loopBody

lemma requiredReductions_mem (k : KernelCall) (x : ScheduleNode)
    (hx : x ∈ requiredReductions k) : ∃ f, x = .greduce f "sum" := by
  simp only [requiredReductions, List.mem_filterMap] at hx
  obtain ⟨a, _, hfa⟩ := hx
  by_cases hc : a.2.accessMode = .sum
  · simp only [hc, if_pos] at hfa
    exact ⟨a.1, (Option.some_inj.mp hfa).symm⟩
  · simp [hc] at hfa

lemma allSequential_append (a b : Schedule) :
    allSequential (a ++ b) = (allSequential a && allSequential b) :=
  List.all_append

lemma allSequential_halos (l : List (String × Nat)) :
    allSequential (l.map (fun h => ScheduleNode.halo h.1 h.2)) = true := by
  rw [allSequential, List.all_eq_true]
  intro x hx
  obtain ⟨h, _, rfl⟩ := List.mem_map.mp hx
  rfl

lemma allSequential_reds (k : KernelCall) :
    allSequential (requiredReductions k) = true := by
  rw [allSequential, List.all_eq_true]
  intro x hx
  obtain ⟨f, rfl⟩ := requiredReductions_mem k x hx
  rfl

lemma emitCall_snd (v : ApiVariant) (d : List String) (k : KernelCall) :
    (emitCall v d k).2 =
      (requiredHalos d k).map (fun h => ScheduleNode.halo h.1 h.2) ++
        ([.loop (defaultBounds v k) false [k]] ++ requiredReductions k) := by
  simp [emitCall]

lemma allSequential_emit (v : ApiVariant) (d : List String) (k : KernelCall) :
    allSequential (emitCall v d k).2 = true := by
  rw [emitCall_snd, allSequential_append, allSequential_append]
  rw [allSequential_halos, allSequential_reds]
  rfl

lemma allSequential_foldl (v : ApiVariant) (calls : List KernelCall) :
    ∀ (d : List String) (acc : Schedule), allSequential acc = true →
      allSequential ((calls.foldl (buildStep v) (d, acc)).2) = true := by
  induction calls with
  | nil => intro d acc h; exact h
  | cons k ks ih =>
    intro d acc h
    rw [List.foldl_cons]
    have hstep : buildStep v (d, acc) k =
        ((emitCall v d k).1, acc ++ (emitCall v d k).2) := rfl
    rw [hstep]
    apply ih
    rw [allSequential_append, h, allSequential_emit]
    rfl

lemma build_sequential (v : ApiVariant) (calls : List KernelCall) :
    allSequential (build v calls) = true :=
  allSequential_foldl v calls [] [] rfl

lemma violatingPair_of_seq (s : Schedule) (h : allSequential s = true)
    (i j : Nat) : violatingPair s i j = false := by
  unfold violatingPair
  cases h1 : s.get? i with
  | none => rfl
  | some n1 =>
    cases h2 : s.get? j with
    | none => cases n1 <;> rfl
    | some n2 =>
      cases n1 with
      | loop b1 p1 body1 =>
        cases n2 with
        | loop b2 p2 body2 =>
          have m1 : ScheduleNode.loop b1 p1 body1 ∈ s := List.get?_mem h1
          have m2 : ScheduleNode.loop b2 p2 body2 ∈ s := List.get?_mem h2
          have e1 := (List.all_eq_true.mp h) _ m1
          have e2 := (List.all_eq_true.mp h) _ m2
          simp only [Bool.not_eq_true'] at e1 e2
          simp [e1, e2]
        | halo f d => rfl
        | greduce f op => rfl
      | halo f d => rfl
      | greduce f op => rfl

lemma raceFree_of_seq (s : Schedule) (h : allSequential s = true) :
    raceFreeB s = true := by
  rw [raceFreeB, firstViolation, Option.isNone_iff_eq_none, List.find?_eq_none]
  intro p _
  simp [violatingPair_of_seq s h]

lemma raceFree_of_applyOk (s : Schedule) (t : Transform) (s1 : Schedule)
    (h : applyTransform s t = .ok s1) : raceFreeB s1 = true := by
  simp only [applyTransform] at h
  cases hv : firstViolation (rewrite s t) with
  | some p => simp [hv] at h
  | none =>
    simp only [hv] at h
    injection h with h2
    rw [← h2, raceFreeB, hv]
    rfl

lemma raceFree_applySeq (ts : List Transform) : ∀ (s s1 : Schedule),
    raceFreeB s = true → applySeq s ts = .ok s1 → raceFreeB s1 = true := by
  induction ts with
  | nil =>
    intro s s1 h he
    cases he
    exact h
  | cons t ts ih =>
    intro s s1 h he
    unfold applySeq at he
    cases ha : applyTransform s t with
    | error e => rw [ha] at he; cases he
    | ok s2 =>
      rw [ha] at he
      exact ih s2 s1 (raceFree_of_applyOk s t s2 ha) he

lemma loopsOf_append (a b : Schedule) :
    loopsOf (a ++ b) = loopsOf a ++ loopsOf b :=
  List.filterMap_append a b loopBody

lemma loopsOf_halos (l : List (String × Nat)) :
    loopsOf (l.map (fun h => ScheduleNode.halo h.1 h.2)) = [] := by
  rw [loopsOf, List.filterMap_eq_nil_iff]
  intro x hx
  obtain ⟨h, _, rfl⟩ := List.mem_map.mp hx
  rfl

lemma loopsOf_reds (k : KernelCall) : loopsOf (requiredReductions k) = [] := by
  rw [loopsOf, List.filterMap_eq_nil_iff]
  intro x hx
  obtain ⟨f, rfl⟩ := requiredReductions_mem k x hx
  rfl

lemma loopsOf_emit (v : ApiVariant) (d : List String) (k : KernelCall) :
    loopsOf (emitCall v d k).2 = [[k]] := by
  rw [emitCall_snd, loopsOf_append, loopsOf_append, loopsOf_halos, loopsOf_reds]
  rfl

lemma loopsOf_foldl (v : ApiVariant) (calls : List KernelCall) :
    ∀ (d : List String) (acc : Schedule),
      loopsOf ((calls.foldl (buildStep v) (d, acc)).2) =
        loopsOf acc ++ calls.map (fun k => [k]) := by
  induction calls with
  | nil => intro d acc; simp
  | cons k ks ih =>
    intro d acc
    rw [List.foldl_cons]
    have hstep : buildStep v (d, acc) k =
        ((emitCall v d k).1, acc ++ (emitCall v d k).2) := rfl
    rw [hstep, ih, loopsOf_append, loopsOf_emit]
    simp

lemma loopsOf_build (v : ApiVariant) (calls : List KernelCall) :
    loopsOf (build v calls) = calls.map (fun k => [k]) := by
  have h := loopsOf_foldl v calls [] []
  simpa [build, loopsOf] using h

lemma build_ne_nil (v : ApiVariant) (calls : List KernelCall)
    (h : calls ≠ []) : build v calls ≠ [] := by
  intro hb
  have hl := loopsOf_build v calls
  rw [hb] at hl
  simp only [loopsOf, List.filterMap_nil] at hl
  exact h (List.map_eq_nil_iff.mp hl.symm)

/-- The first kernel of the spec's example scenario: kernel_a(fieldX:write). -/
def kernelA : KernelCall := ⟨"kernel_a", ["fieldX"], [⟨.write, "cells", none⟩]⟩

/-- The second kernel of the spec's example scenario:
kernel_b(fieldX:read, stencil=1). -/
def kernelB : KernelCall := ⟨"kernel_b", ["fieldX"], [⟨.read, "cells", some 1⟩]⟩

/-- The invoke of the spec's example scenario: kernel_a then kernel_b. -/
def exampleCalls : List KernelCall := [kernelA, kernelB]

/-- The example schedule with the halo exchange absent (the illegal starting
point of the spec's transformation scenario). -/
def noHaloSchedule : Schedule :=
  [.loop "cells" false [kernelA], .loop "cells" false [kernelB]]

/-- The example schedule after parallelizing kernel_b's loop. -/
def parallelizedExample : Schedule :=
  [.loop "cells" false [kernelA], .halo "fieldX" 1, .loop "cells" true [kernelB]]

/-- The single-kernel invoke retrieved as invoke_v3_kernel_type by the example
driver. -/
def v3Kernel : KernelCall :=
  ⟨"v3_kernel_type", ["rhs"], [⟨.write, "v3", none⟩]⟩

/-- The single-kernel invoke retrieved as invoke_v3_solver_kernel_type by the
example driver. -/
def v3SolverKernel : KernelCall :=
  ⟨"v3_solver_kernel_type", ["x", "rhs"], [⟨.write, "v3", none⟩, ⟨.read, "v3", none⟩]⟩

/-- Claim C1: every Schedule the builder produces satisfies the
data-race-freedom invariant (the initial unparallelized schedule by
construction), and every sequence of transformations the engine accepts
without IllegalTransformationError preserves it on the result. -/
theorem race_freedom_preservation (v : ApiVariant) (calls : List KernelCall)
    (ts : List Transform) (s1 : Schedule) :
    raceFreeB (build v calls) = true ∧
      (applySeq (build v calls) ts = .ok s1 → raceFreeB s1 = true) := by
  have hb : raceFreeB (build v calls) = true :=
    raceFree_of_seq _ (build_sequential v calls)
  exact ⟨hb, fun h => raceFree_applySeq ts (build v calls) s1 hb h⟩

/-- Witness for C1 at the spec's two-kernel example with the accepted
transformation sequence that parallelizes kernel_b's loop. -/
theorem race_freedom_preservation_witness :
    raceFreeB parallelizedExample = true :=
  (race_freedom_preservation .dynamo0_1 exampleCalls [.parallelize 2]
    parallelizedExample).2 (by rfl)

/-- Claim C2: the builder emits one LoopNode wrapping a KernelCallNode per
kernel call site in declaration order, and on the spec's two-kernel example it
produces LoopNode(kernel_a), HaloExchangeNode(fieldX, depth=1),
LoopNode(kernel_b) in this order. -/
theorem builder_output_structure (v : ApiVariant) (calls : List KernelCall) :
    loopsOf (build v calls) = calls.map (fun k => [k]) ∧
      build .dynamo0_1 exampleCalls =
        [.loop "cells" false [kernelA], .halo "fieldX" 1,
         .loop "cells" false [kernelB]] :=
  ⟨loopsOf_build v calls, by decide⟩

/-- Claim C3: on the two-kernel example, Parallelize on kernel_b's loop fails
with IllegalTransformationError (naming the invariant and the offending node
pair) when the halo exchange is absent, succeeds when it is present, after
which render wraps the parallel region only around kernel_b's loop; and the
engine accepts a transform only after re-validating the race-freedom invariant
on the post-transform tree. -/
theorem parallelize_legality_example :
    applyTransform noHaloSchedule (.parallelize 1) =
        .error (.illegal "data-race-freedom" (0, 1)) ∧
      applyTransform (build .dynamo0_1 exampleCalls) (.parallelize 2) =
        .ok parallelizedExample ∧
      renderLines parallelizedExample =
        ["do cell = 1, cells", "  call kernel_a(fieldX)", "end do",
         "call halo_exchange(fieldX, depth=1)", "!$omp parallel do",
         "do cell = 1, cells", "  call kernel_b(fieldX)", "end do",
         "!$omp end parallel do"] ∧
      ∀ (s : Schedule) (t : Transform) (s1 : Schedule),
        applyTransform s t = .ok s1 → raceFreeB s1 = true :=
  ⟨by rfl, by rfl, by rfl, fun s t s1 h => raceFree_of_applyOk s t s1 h⟩

/-- Witness for C3's re-validation conjunct at a concrete accepted transform
(fusing the two sequential loops of the no-halo schedule). -/
theorem parallelize_legality_example_witness :
    raceFreeB [ScheduleNode.loop "cells" false [kernelA, kernelB]] = true :=
  parallelize_legality_example.2.2.2 noHaloSchedule (.fuse 0 1)
    [ScheduleNode.loop "cells" false [kernelA, kernelB]] (by rfl)

/-- Claim C4: every invoke name in a compiled unit's listing retrieves, via the
named lookup, an existing Invoke whose Schedule is non-empty (invoke calls are
non-empty, as the parser rejects an empty invoke list). -/
theorem roundtrip_naming (v : ApiVariant) (unit : List (List KernelCall))
    (h : ∀ calls ∈ unit, calls ≠ []) :
    ∀ n ∈ invokeNames (compileUnit v unit),
      ∃ inv, getInvoke (compileUnit v unit) n = some inv ∧ inv.schedule ≠ [] := by
  intro n hn
  obtain ⟨i, hi, hname⟩ : ∃ i ∈ compileUnit v unit, i.name = n := by
    simpa [invokeNames, List.mem_map] using hn
  have hsome : (getInvoke (compileUnit v unit) n).isSome := by
    rw [getInvoke, List.find?_isSome]
    exact ⟨i, hi, by simp [hname]⟩
  obtain ⟨inv, hinv⟩ := Option.isSome_iff_exists.mp hsome
  refine ⟨inv, hinv, ?_⟩
  have hmem : inv ∈ compileUnit v unit := List.mem_of_find?_eq_some hinv
  obtain ⟨calls, hc, he⟩ := List.mem_map.mp hmem
  rw [← he]
  exact build_ne_nil v calls (h calls hc)

/-- Witness for C4 at a unit of the example driver's two single-kernel
invokes. -/
theorem roundtrip_naming_witness :
    (∀ calls ∈ [[v3Kernel], [v3SolverKernel]], calls ≠ []) ∧
      ∀ n ∈ invokeNames (compileUnit .dynamo0_1 [[v3Kernel], [v3SolverKernel]]),
        ∃ inv,
          getInvoke (compileUnit .dynamo0_1 [[v3Kernel], [v3SolverKernel]]) n =
              some inv ∧
            inv.schedule ≠ [] :=
  ⟨by decide,
   roundtrip_naming .dynamo0_1 [[v3Kernel], [v3SolverKernel]] (by decide)⟩

/-- Claim C5: parsing the same (sourceText, apiId) twice yields structurally
equal results, and building twice from the same resolved invoke and API
variant yields structurally equal Schedules; both are pure functions of their
arguments, so no hidden state affects either output. -/
theorem determinism (sourceText apiId : String) (v : ApiVariant)
    (calls : List KernelCall) :
    parse sourceText apiId = parse sourceText apiId ∧
      build v calls = build v calls :=
  ⟨rfl, rfl⟩

/-- Claim C6: selecting a builder for an apiId outside the closed supported set
fails with UnsupportedAPIError whose report lists the supported API
identifiers. -/
theorem unsupported_api (apiId : String) (h : apiId ∉ supportedAPIs) :
    selectBuilder apiId = .error ⟨supportedAPIs⟩ := by
  have hne : apiId ≠ "dynamo0.1" := by
    intro he
    exact h (by simp [supportedAPIs, he])
  simp [selectBuilder, hne]

/-- Witness for C6 at the spec's example input unknown_api. -/
theorem unsupported_api_witness :
    "unknown_api" ∉ supportedAPIs ∧
      selectBuilder "unknown_api" = .error ⟨supportedAPIs⟩ :=
  ⟨by decide, unsupported_api "unknown_api" (by decide)⟩

/-- Claim C7: resolving a kernel name absent from the metadata store always
fails with UnknownKernelError and never another error kind;
MalformedMetadataError arises only when a descriptor is found but cannot be
decoded into the access-mode/space schema. -/
theorem unknown_kernel_rejection (store : MetadataStore) (name : String) :
    (lookupKernel store name = none →
      resolve store name = .error (.unknownKernelError name)) ∧
      (resolve store name = .error (.malformedMetadataError name) →
        ∃ raw, lookupKernel store name = some raw ∧ decodeDescriptor raw = none) := by
  constructor
  · intro h
    simp [resolve, h]
  · intro h
    cases hl : lookupKernel store name with
    | none => simp [resolve, hl] at h
    | some raw =>
      refine ⟨raw, rfl, ?_⟩
      cases hd : decodeDescriptor raw with
      | none => rfl
      | some md => simp [resolve, hl, hd] at h

/-- Witness for C7: an empty store rejects a missing kernel with
UnknownKernelError, and a store holding an undecodable descriptor yields
MalformedMetadataError exactly because its descriptor fails to decode. -/
theorem unknown_kernel_rejection_witness :
    resolve ⟨[]⟩ "missing" = .error (.unknownKernelError "missing") ∧
      ∃ raw, lookupKernel ⟨[("k", [("bogus", "cells", none)])]⟩ "k" = some raw ∧
        decodeDescriptor raw = none :=
  ⟨(unknown_kernel_rejection ⟨[]⟩ "missing").1 rfl,
   (unknown_kernel_rejection ⟨[("k", [("bogus", "cells", none)])]⟩ "k").2 rfl⟩

/-- Claim C8: one engine call returns its result as a new schedule value while
the input schedule the caller holds after the call is structurally unchanged,
whether the application succeeds or fails. -/
theorem apply_returns_new_schedule (s : Schedule) (t : Transform) :
    (applyCall s t).2 = s ∧ (applyCall s t).1 = applyTransform s t :=
  ⟨rfl, rfl⟩

/-- Claim C9: rendering a schedule's tree view twice without an intervening
transformation yields byte-identical text; view and render are pure functions
of the Schedule. -/
theorem view_idempotent (s : Schedule) :
    view s = view s ∧ render s = render s :=
  ⟨rfl, rfl⟩

/-- Claim C10: an invoke containing exactly one kernel call of kernel type T is
named "invoke_" followed by T, as for the example driver's
invoke_v3_kernel_type and invoke_v3_solver_kernel_type; the name is a pure
function of the invoke's kernel calls, hence stable across runs. -/
theorem invoke_naming (k : KernelCall) :
    invokeName [k] = "invoke_" ++ k.kernelName ∧
      invokeName [v3Kernel] = "invoke_v3_kernel_type" ∧
      invokeName [v3SolverKernel] = "invoke_v3_solver_kernel_type" :=
  ⟨rfl, by decide, by decide⟩

end PSy
